import Mathlib

/-!
# GCAM core: solver component interface and three leaf computations

A shallow embedding of

* `solution/solvers/include/solver_component.h` (the `SolverComponent` interface),
* `technologies/source/building_cooling_dmd_technology.cpp` (`getDemandFnPrefix`),
* `sectors/source/food_supply_subsector.cpp` (`calcShare`),
* `ccarbon_model/source/luc_flow_in_to_box_model.cpp` (`transfer`).

Conventions.  A C++ `double` is a rational number (`ℚ`): every property below is about
which expression is evaluated and which branch is taken, none is about rounding.  A C++
`int` is an `Int`, an `unsigned int` a `Nat`.  A `std::vector` is a `List`, and an
indexing `v[i]` outside the vector (undefined in C++) makes the embedded function return
`none`.  Functions of other translation units that the embedded code calls are taken as
parameters.
-/

namespace Gcam

/-! ## `SolverComponent::ReturnCode` (solver_component.h, lines 71-79) -/

/-- Return code of the solve method. -/
inductive ReturnCode where
  | ORIGINAL_STATE
  | SUCCESS
  | FAILURE_ITER_MAX_REACHED
  | FAILURE_WRONG_DIRECTION
  | FAILURE_SOLUTION_SIZE_CHANGED
  | FAILURE_SINGULAR_MATRIX
  deriving DecidableEq, Repr

namespace ReturnCode

/-- The integer value of an enumerator: the enum gives no explicit values, so the first
enumerator is 0 and each later one is its predecessor plus one. -/
def toNat : ReturnCode → Nat
  | ORIGINAL_STATE => 0
  | SUCCESS => 1
  | FAILURE_ITER_MAX_REACHED => 2
  | FAILURE_WRONG_DIRECTION => 3
  | FAILURE_SOLUTION_SIZE_CHANGED => 4
  | FAILURE_SINGULAR_MATRIX => 5

/-- The enumerators in declaration order. -/
def all : List ReturnCode :=
  [ORIGINAL_STATE, SUCCESS, FAILURE_ITER_MAX_REACHED, FAILURE_WRONG_DIRECTION,
   FAILURE_SOLUTION_SIZE_CHANGED, FAILURE_SINGULAR_MATRIX]

end ReturnCode

/-- The signature of the pure virtual `SolverComponent::solve` (solver_component.h,
lines 88-90): `solutionTolerance`, `edSolutionFloor`, `maxIterations`, the solver set
(passed by reference, so the method also yields its new contents) and `period`.  The
class `SolverInfoSet` is only forward-declared in the header and is a type parameter. -/
abbrev SolveMethod (SolverInfoSet : Type) : Type :=
  ℚ → ℚ → Nat → SolverInfoSet → Int → ReturnCode × SolverInfoSet

/-! ## `BuildingCoolingDmdTechnology::getDemandFnPrefix` -/

/-- The members of the technology that `getDemandFnPrefix` reads.  All but
`coolingDegreeDays` are inherited from base classes. -/
structure BuildingCoolingDmdTechnology where
  fuelname : String
  saturation : ℚ
  aveInsulation : ℚ
  floorToSurfaceArea : ℚ
  coolingDegreeDays : ℚ
  priceElasticity : ℚ

/-- Demand function prefix (building_cooling_dmd_technology.cpp, lines 106-118).
`pow` is the `<cmath>` function and `getPrice` is `Marketplace::getPrice`
(fuel, region, period); both are parameters. -/
def getDemandFnPrefix (pow : ℚ → ℚ → ℚ) (getPrice : String → String → Int → ℚ)
    (t : BuildingCoolingDmdTechnology) (regionName : String) (period : Int) : ℚ :=
  let priceRatio : ℚ :=
    if period > 1 then
      getPrice t.fuelname regionName period / getPrice t.fuelname regionName 1
    else 1
  let prefixValue : ℚ :=
    t.saturation * t.aveInsulation * t.floorToSurfaceArea *
      t.coolingDegreeDays * pow priceRatio t.priceElasticity
  -- Make sure and do not return zero
  if prefixValue > 0 then prefixValue else 1

/-! ## `FoodSupplySubsector::calcShare` -/

/-- The state of a subsector: its technologies (`techs`, whose type `τ` is left open)
and the per-period `share` vector inherited from `Subsector`. -/
structure FoodSupplySubsector (τ : Type) where
  techs : τ
  share : List ℚ

/-- The method `calcShare` (food_supply_subsector.cpp, lines 109-115).  `calcTechShares`
is the inherited `Subsector` method, a parameter; as a member function it may change any
member.  The result is `none` when `aPeriod` does not index `share` at the assignment. -/
def FoodSupplySubsector.calcShare {τ γ : Type}
    (calcTechShares : γ → Int → FoodSupplySubsector τ → FoodSupplySubsector τ)
    (s : FoodSupplySubsector τ) (aPeriod : Int) (aGDP : γ) :
    Option (FoodSupplySubsector τ) :=
  -- call function to compute technology shares
  let s1 := calcTechShares aGDP aPeriod s
  if 0 ≤ aPeriod ∧ aPeriod.toNat < s1.share.length then
    some { s1 with share := s1.share.set aPeriod.toNat 1 }
  else none

/-! ## `LUCFlowInToBoxModel::transfer` -/

/-- One call of `ICarbonContainer::acceptTransfer`: the amount, the year and the box
type (the enum `BoxType` is a type parameter). -/
structure TransferCall (β : Type) where
  amount : ℚ
  year : Int
  boxType : β

/-- A carbon container seen from the flow: the `acceptTransfer` calls it has received,
oldest first. -/
structure ICarbonContainer (β : Type) where
  received : List (TransferCall β)

/-- The call `acceptTransfer( aValue, aYear, aBoxType )` on a container. -/
def ICarbonContainer.acceptTransfer {β : Type} (c : ICarbonContainer β)
    (aValue : ℚ) (aYear : Int) (aBoxType : β) : ICarbonContainer β :=
  { received := c.received ++ [⟨aValue, aYear, aBoxType⟩] }

/-- What `transfer` reads of `EnvironmentalInfo`: the key returned by `getKey()`. -/
structure EnvironmentalInfo where
  key : Int

/-- The members of the flow: `mFraction` (inherited from `ACarbonFlow`) and the target
`mTarget`. -/
structure LUCFlowInToBoxModel (β : Type) where
  mFraction : ℚ
  mTarget : ICarbonContainer β

/-- The constructor `LUCFlowInToBoxModel( aTarget, aFraction )` (lines 32-37); the
parameter `aFraction` is declared `const int`. -/
def LUCFlowInToBoxModel.create {β : Type} (aTarget : ICarbonContainer β)
    (aFraction : Int) : LUCFlowInToBoxModel β :=
  { mFraction := (aFraction : ℚ), mTarget := aTarget }

/-- The method `transfer` (luc_flow_in_to_box_model.cpp, lines 73-80).
`getTotalLandGain` is `CarbonSummer::getInstance()->getTotalLandGain`, a parameter;
`abs` is the absolute value of a `double`. -/
def LUCFlowInToBoxModel.transfer {β : Type} (getTotalLandGain : Int → ℚ)
    (f : LUCFlowInToBoxModel β) (aValue : ℚ) (aEnvInfo : EnvironmentalInfo)
    (aYear : Int) (aBoxType : β) : LUCFlowInToBoxModel β :=
  let totalLandLost : ℚ := getTotalLandGain aEnvInfo.key
  -- Pass in carbon per unit land lost.
  { f with mTarget :=
      f.mTarget.acceptTransfer ((aValue / |totalLandLost|) * f.mFraction) aYear aBoxType }

/-! ## `SolverComponent`: the iteration trail

The header declares `IterationInfo`, `mPastIters`, `addIteration`, `isImproving` and
`startMethod`; their bodies are in no source file at hand.  The data below follows the
header, the behaviour follows the design document. -/

/-- Modelled from the spec: the `Market` record of section 3 (the class itself is
missing): identity (commodity name, region) and the attributes price, supply and
demand. -/
structure Market where
  name : String
  region : String
  price : ℚ
  supply : ℚ
  demand : ℚ
  deriving DecidableEq, Repr

/-- A structure used to track maximum relative excess demand over many iterations
(solver_component.h, lines 99-108). -/
structure IterationInfo where
  /-- Name of the SolverComponent active in the iteration. -/
  mName : String := ""
  /-- Maximum relative excess demand in the iteration. -/
  mRED : ℚ := 0
  deriving DecidableEq, Repr

/-- The data members of a `SolverComponent` (solver_component.h, lines 93-110): the
markets reached through `marketplace`, the count kept by `calcCounter`, the trail
`mPastIters`, and in `derived` whatever a concrete subclass adds (its caches). -/
structure SolverComponent (σ : Type) where
  marketplace : List Market
  calcCounter : Nat
  mPastIters : List IterationInfo
  derived : σ

namespace SolverComponent

/-- Modelled from the spec: the body of `startMethod` is missing; section 4.3 says
"`startMethod()` clears the IterationInfo trail". -/
def startMethod {σ : Type} (c : SolverComponent σ) : SolverComponent σ :=
  { c with mPastIters := [] }

/-- Modelled from the spec: the body of `addIteration` is missing; section 3 makes the
trail "an ordered, append-only sequence" of records {component name, maximum relative
excess demand observed that iteration}, so the call appends one record at the end. -/
def addIteration {σ : Type} (c : SolverComponent σ) (aSolName : String) (aRED : ℚ) :
    SolverComponent σ :=
  { c with mPastIters := c.mPastIters ++ [{ mName := aSolName, mRED := aRED }] }

/-- Modelled from the spec: "the maximum RED" of a window of the trail (section 4.3 (e));
`none` for a window without a record. -/
def maxRED : List IterationInfo → Option ℚ
  | [] => none
  | i :: rest =>
    match maxRED rest with
    | none => some i.mRED
    | some m => some (max i.mRED m)

/-- Modelled from the spec: "the last `windowSize` iterations" (section 4.3 (e)), the most
recent `aNumIter` records of the trail, newest first. -/
def recentWindow {σ : Type} (c : SolverComponent σ) (aNumIter : Nat) : List IterationInfo :=
  c.mPastIters.reverse.take aNumIter

/-- Modelled from the spec: "the prior window" (section 4.3 (e)), the `aNumIter` records
before the most recent `aNumIter`, newest first. -/
def priorWindow {σ : Type} (c : SolverComponent σ) (aNumIter : Nat) : List IterationInfo :=
  (c.mPastIters.reverse.drop aNumIter).take aNumIter

/-- Modelled from the spec: the body of `isImproving` is missing; section 4.3 (e) says
"compare the maximum RED over the last `windowSize` iterations against the prior window;
if it has not strictly improved, conclude the method is stuck".  The method is improving
when the recent maximum is strictly below the prior one.  The document does not say what
is returned while one of the two windows holds no record; `true` is returned then. -/
def isImproving {σ : Type} (c : SolverComponent σ) (aNumIter : Nat) : Bool :=
  match maxRED (c.recentWindow aNumIter), maxRED (c.priorWindow aNumIter) with
  | some recent, some prior => decide (recent < prior)
  | _, _ => true

end SolverComponent

/-- The calls `addIteration( name, RED )` made in turn for each pair of a list. -/
def SolverComponent.addIterations {σ : Type} (c : SolverComponent σ)
    (iters : List (String × ℚ)) : SolverComponent σ :=
  iters.foldl (fun acc p => acc.addIteration p.1 p.2) c

/-! ## Inputs used to exercise the definitions -/

/-- A `pow` that is exact for whole exponents: the base raised to the numerator of the
exponent. -/
def wholePow (b e : ℚ) : ℚ := b ^ e.num

/-- A price table: electricity costs 4 in period 1 and 8 in every other period. -/
def samplePrice (_fuel _region : String) (period : Int) : ℚ :=
  if period = 1 then 4 else 8

/-- A cooling technology with unit price elasticity. -/
def sampleCooling : BuildingCoolingDmdTechnology :=
  { fuelname := "electricity", saturation := 1 / 2, aveInsulation := 3,
    floorToSurfaceArea := 2, coolingDegreeDays := 5, priceElasticity := 1 }

/-- A food supply subsector with two technology shares and three periods. -/
def sampleFood : FoodSupplySubsector (List ℚ) :=
  { techs := [1, 3], share := [1 / 4, 1 / 2, 3 / 4] }

/-- A `calcTechShares` that normalises the technology shares. -/
def sampleCalcTechShares (_gdp : ℚ) (_period : Int)
    (s : FoodSupplySubsector (List ℚ)) : FoodSupplySubsector (List ℚ) :=
  { s with techs := s.techs.map (fun x => x / s.techs.sum) }

/-- A carbon summer reporting a land change of -4 for key 7 and none elsewhere. -/
def sampleLandGain (key : Int) : ℚ := if key = 7 then -4 else 0

/-- A flow built by the constructor with fraction 2 onto a fresh container; box types
are numbered. -/
def sampleFlow : LUCFlowInToBoxModel Nat :=
  LUCFlowInToBoxModel.create { received := [] } 2

/-- A component of the bisection method whose trail oscillates between 4 and 2. -/
def sampleComponent : SolverComponent Unit :=
  { marketplace := [], calcCounter := 0, derived := (),
    mPastIters := [⟨"Bisect", 4⟩, ⟨"Bisect", 2⟩, ⟨"Bisect", 4⟩, ⟨"Bisect", 2⟩] }

/-! ## Theorems -/

/-- The trail after `startMethod` and a list of `addIteration` calls holds exactly the
records of those calls, in call order. -/
theorem SolverComponent.addIterations_mPastIters {σ : Type} (iters : List (String × ℚ)) :
    ∀ c : SolverComponent σ,
      (c.addIterations iters).mPastIters =
        c.mPastIters ++ iters.map (fun p => { mName := p.1, mRED := p.2 }) := by
  induction iters with
  | nil => intro c; simp [SolverComponent.addIterations]
  | cons p rest ih =>
    intro c
    have h := ih (c.addIteration p.1 p.2)
    simp only [SolverComponent.addIterations, List.foldl_cons] at h ⊢
    rw [h]
    simp [SolverComponent.addIteration]

/-- The calls `addIteration` leave the markets of the component as they were. -/
theorem SolverComponent.addIterations_marketplace {σ : Type} (iters : List (String × ℚ)) :
    ∀ c : SolverComponent σ, (c.addIterations iters).marketplace = c.marketplace := by
  induction iters with
  | nil => intro c; rfl
  | cons p rest ih =>
    intro c
    have h := ih (c.addIteration p.1 p.2)
    simp only [SolverComponent.addIterations, List.foldl_cons] at h ⊢
    rw [h]
    rfl

/-- C4: `ReturnCode` has exactly six pairwise distinct values, numbered 0 to 5 in
declaration order, every value of the type is one of them, and so is the code returned
by any implementation of `solve`, whatever its arguments. -/
theorem returnCode_closed_six_values {SolverInfoSet : Type}
    (solve : SolveMethod SolverInfoSet) (solutionTolerance edSolutionFloor : ℚ)
    (maxIterations : Nat) (solverSet : SolverInfoSet) (period : Int) :
    ReturnCode.all.length = 6 ∧ ReturnCode.all.Nodup ∧
    ReturnCode.all.map ReturnCode.toNat = [0, 1, 2, 3, 4, 5] ∧
    (∀ r : ReturnCode, r ∈ ReturnCode.all) ∧
    (solve solutionTolerance edSolutionFloor maxIterations solverSet period).1
      ∈ ReturnCode.all := by
  have hall : ∀ r : ReturnCode, r ∈ ReturnCode.all := by
    intro r
    cases r <;> simp [ReturnCode.all]
  exact ⟨rfl, by decide, rfl, hall, hall _⟩

/-- C5: `getDemandFnPrefix` never returns zero: for every region, period, price table
and member values the result is strictly positive. -/
theorem getDemandFnPrefix_pos (pow : ℚ → ℚ → ℚ) (getPrice : String → String → Int → ℚ)
    (t : BuildingCoolingDmdTechnology) (regionName : String) (period : Int) :
    0 < getDemandFnPrefix pow getPrice t regionName period := by
  unfold getDemandFnPrefix
  simp only
  split_ifs with h1 h2 h2
  · exact h2
  · exact one_pos
  · exact h2
  · exact one_pos

/-- C6: for a period after period 1 and a non-zero period-1 fuel price,
`getDemandFnPrefix` returns `P = saturation * aveInsulation * floorToSurfaceArea *
coolingDegreeDays * (price(period) / price(1)) ^ priceElasticity` when `P > 0`, and 1
otherwise. -/
theorem getDemandFnPrefix_eq (pow : ℚ → ℚ → ℚ) (getPrice : String → String → Int → ℚ)
    (t : BuildingCoolingDmdTechnology) (regionName : String) (period : Int)
    (hperiod : 1 < period) (_hprice : getPrice t.fuelname regionName 1 ≠ 0) :
    getDemandFnPrefix pow getPrice t regionName period =
      if 0 < t.saturation * t.aveInsulation * t.floorToSurfaceArea * t.coolingDegreeDays *
            pow (getPrice t.fuelname regionName period / getPrice t.fuelname regionName 1)
              t.priceElasticity
      then t.saturation * t.aveInsulation * t.floorToSurfaceArea * t.coolingDegreeDays *
            pow (getPrice t.fuelname regionName period / getPrice t.fuelname regionName 1)
              t.priceElasticity
      else 1 := by
  unfold getDemandFnPrefix
  simp only [gt_iff_lt, if_pos hperiod]

/-- Witness for C6: in period 2 the sample technology has price ratio 8 / 4 and the
prefix is 1/2 * 3 * 2 * 5 * 2 = 30. -/
theorem getDemandFnPrefix_eq_witness :
    (1 : Int) < 2 ∧ samplePrice sampleCooling.fuelname "USA" 1 ≠ 0 ∧
    getDemandFnPrefix wholePow samplePrice sampleCooling "USA" 2 = 30 :=
  ⟨by decide, by norm_num [samplePrice],
   (getDemandFnPrefix_eq wholePow samplePrice sampleCooling "USA" 2 (by decide)
      (by norm_num [samplePrice])).trans
     (by norm_num [samplePrice, sampleCooling, wholePow])⟩

/-- C7: when `aPeriod` indexes the share vector, `calcShare` completes and leaves
`share[aPeriod]` equal to 1, whatever `calcTechShares` computed for the technologies. -/
theorem calcShare_share_is_one {τ γ : Type}
    (calcTechShares : γ → Int → FoodSupplySubsector τ → FoodSupplySubsector τ)
    (s : FoodSupplySubsector τ) (aPeriod : Int) (aGDP : γ)
    (h0 : 0 ≤ aPeriod)
    (h1 : aPeriod.toNat < (calcTechShares aGDP aPeriod s).share.length) :
    ∃ s1 : FoodSupplySubsector τ,
      s.calcShare calcTechShares aPeriod aGDP = some s1 ∧
      s1.share[aPeriod.toNat]? = some 1 ∧
      s1.techs = (calcTechShares aGDP aPeriod s).techs := by
  refine ⟨{ calcTechShares aGDP aPeriod s with
            share := (calcTechShares aGDP aPeriod s).share.set aPeriod.toNat 1 }, ?_, ?_, rfl⟩
  · unfold FoodSupplySubsector.calcShare
    simp only [if_pos (And.intro h0 h1)]
  · simp [List.getElem?_set, h1]

/-- Witness for C7: period 1 of the three-period sample subsector. -/
theorem calcShare_share_is_one_witness :
    ∃ s1 : FoodSupplySubsector (List ℚ),
      sampleFood.calcShare sampleCalcTechShares 1 (100 : ℚ) = some s1 ∧
      s1.share[(1 : Int).toNat]? = some 1 ∧
      s1.techs = (sampleCalcTechShares 100 1 sampleFood).techs :=
  calcShare_share_is_one sampleCalcTechShares sampleFood 1 (100 : ℚ) (by decide)
    (by simp [sampleCalcTechShares, sampleFood])

/-- C8: for a non-zero total land change `L` reported for the environment key,
`transfer` makes exactly one `acceptTransfer` call on the target, with amount
`(aValue / |L|) * mFraction` and with the year and box type it was given. -/
theorem transfer_passes_carbon_per_unit_land {β : Type} (getTotalLandGain : Int → ℚ)
    (f : LUCFlowInToBoxModel β) (aValue : ℚ) (aEnvInfo : EnvironmentalInfo)
    (aYear : Int) (aBoxType : β)
    (_hL : getTotalLandGain aEnvInfo.key ≠ 0) :
    (f.transfer getTotalLandGain aValue aEnvInfo aYear aBoxType).mTarget.received =
      f.mTarget.received ++
        [⟨(aValue / |getTotalLandGain aEnvInfo.key|) * f.mFraction, aYear, aBoxType⟩] ∧
    (f.transfer getTotalLandGain aValue aEnvInfo aYear aBoxType).mFraction = f.mFraction :=
  ⟨rfl, rfl⟩

/-- Witness for C8: a value of 10 over a land change of -4 with fraction 2 sends 5. -/
theorem transfer_passes_carbon_per_unit_land_witness :
    sampleLandGain (EnvironmentalInfo.mk 7).key ≠ 0 ∧
    (sampleFlow.transfer sampleLandGain 10 ⟨7⟩ 2020 3).mTarget.received = [⟨5, 2020, 3⟩] :=
  ⟨by norm_num [sampleLandGain],
   (transfer_passes_carbon_per_unit_land sampleLandGain sampleFlow 10 ⟨7⟩ 2020 3
      (by norm_num [sampleLandGain])).1.trans
     (by norm_num [sampleLandGain, sampleFlow, LUCFlowInToBoxModel.create])⟩

/-- C2: whenever the maximum `mRED` over the most recent `aNumIter` records is not
smaller than the maximum over the records of the window before them, `isImproving`
returns false. -/
theorem isImproving_false_of_not_smaller {σ : Type} (c : SolverComponent σ)
    (aNumIter : Nat) (recent prior : ℚ)
    (hrecent : SolverComponent.maxRED (c.recentWindow aNumIter) = some recent)
    (hprior : SolverComponent.maxRED (c.priorWindow aNumIter) = some prior)
    (hnot : ¬ recent < prior) :
    c.isImproving aNumIter = false := by
  unfold SolverComponent.isImproving
  rw [hrecent, hprior]
  simpa using hnot

/-- Witness for C2: the trail 4, 2, 4, 2 oscillates; with a window of 2 both maxima are
4 and `isImproving` returns false. -/
theorem isImproving_false_of_not_smaller_witness :
    SolverComponent.maxRED (sampleComponent.recentWindow 2) = some 4 ∧
    SolverComponent.maxRED (sampleComponent.priorWindow 2) = some 4 ∧
    ¬ ((4 : ℚ) < 4) ∧
    sampleComponent.isImproving 2 = false :=
  ⟨by decide!, by decide!, by norm_num,
   isImproving_false_of_not_smaller sampleComponent 2 4 4 (by decide!) (by decide!)
     (by norm_num)⟩

/-- C3: after `startMethod()` and then `addIteration` on each of n (name, RED) pairs in
turn, whatever the trail was before, `mPastIters` holds exactly the n records in call
order; the trail after the first k calls is the first k records of the final trail, so
later calls leave earlier records as they were; and neither operation changes the
markets (price, supply, demand). -/
theorem trail_reset_then_append_only {σ : Type} (c : SolverComponent σ)
    (iters : List (String × ℚ)) :
    (c.startMethod.addIterations iters).mPastIters =
      iters.map (fun p => { mName := p.1, mRED := p.2 }) ∧
    (∀ k : Nat, (c.startMethod.addIterations (iters.take k)).mPastIters =
      (c.startMethod.addIterations iters).mPastIters.take k) ∧
    c.startMethod.marketplace = c.marketplace ∧
    (∀ k : Nat, (c.startMethod.addIterations (iters.take k)).marketplace = c.marketplace) ∧
    (∀ (d : SolverComponent σ) (aSolName : String) (aRED : ℚ),
      (d.addIteration aSolName aRED).marketplace = d.marketplace) := by
  have hstart : c.startMethod.mPastIters = [] := rfl
  refine ⟨?_, ?_, rfl, ?_, fun _ _ _ => rfl⟩
  · rw [SolverComponent.addIterations_mPastIters, hstart, List.nil_append]
  · intro k
    rw [SolverComponent.addIterations_mPastIters, SolverComponent.addIterations_mPastIters,
      hstart, List.nil_append, List.nil_append, List.map_take]
  · intro k
    rw [SolverComponent.addIterations_marketplace]
    rfl

end Gcam
